import Mathlib

/-!
# RFIDWallet ESP32 firmware: `esp32/src/main.cpp`

A shallow embedding of the sketch.  Every call the sketch makes into the
Arduino core or the MFRC522 driver is recorded as one `Event`; a function of
the sketch is the list of events it performs, in program order.  What the
reader chip answers (the version register, the two card checks, the UID
buffer) is an input of the embedding.  The observable quantities are computed
from the event list: the bytes sent on the serial link, the level of the LED
pin and the time spent in `delay`.
-/

namespace RFIDWallet

/-! ## Constants of the sketch -/

/-- SDA/SS of the RC522: `#define SS_PIN 5`. -/
def SS_PIN : Nat := 5

/-- Reset line of the RC522: `#define RST_PIN 2`. -/
def RST_PIN : Nat := 2

/-- Feedback LED: `#define LED_PIN 4`. -/
def LED_PIN : Nat := 4

/-- Arduino `HIGH`. -/
def HIGH : Bool := true

/-- Arduino `LOW`. -/
def LOW : Bool := false

/-! ## Events -/

/-- One call into the Arduino core or the MFRC522 driver. -/
inductive Event where
  | pinModeOutput (pin : Nat)
  | digitalWrite (pin : Nat) (level : Bool)
  | delay (ms : Nat)
  | serialBegin (baud : Nat)
  | serialPrint (s : String)
  | serialPrintln (s : String)
  | spiBegin
  | pcdInit
  | pcdReadVersionReg
  | piccIsNewCardPresent
  | piccReadCardSerial
  | piccHaltA
  | pcdStopCrypto1
  deriving DecidableEq, Repr

/-! ## Machine loops -/

/-- The loop `for (uint8_t i = i0; i < n; i++) s = body(i, s);` entered with
`i0 = i`, where the bound `n` is itself a `uint8_t` (its value is `n % 256`)
and the increment of `i` wraps at 256.  The recursion is well founded: the
counter never wraps before it reaches the bound. -/
def forUInt8 {σ : Type} (n : Nat) (body : Nat → σ → σ) (i : Nat) (s : σ) : σ :=
  if i < n % 256 then forUInt8 n body ((i + 1) % 256) (body i s) else s
termination_by n % 256 - i
decreasing_by
  have h2 : (i + 1) % 256 = i + 1 := Nat.mod_eq_of_lt (by omega)
  omega

/-! ## Status indicator -/

/-- The sketch's `blinkSuccess(uint8_t times, uint16_t onMs, uint16_t offMs)`:
the events it performs.  The arguments are converted to their parameter
types on entry. -/
def blinkSuccess (times onMs offMs : Nat) : List Event :=
  forUInt8 times
    (fun _ t => t ++ [Event.digitalWrite LED_PIN HIGH, Event.delay (onMs % 65536),
                      Event.digitalWrite LED_PIN LOW, Event.delay (offMs % 65536)])
    0 []

/-! ## Identifier formatting -/

/-- The driver's `MFRC522::Uid`: the byte `size` and the buffer `uidByte`. -/
structure Uid where
  size : Nat
  uidByte : List Nat
  deriving DecidableEq, Repr

/-- The Arduino constructor `String(unsigned char value, HEX)`: the digits of
`value` in base 16, lowercase, most significant first, no padding. -/
def stringHEX (value : Nat) : String :=
  String.mk (Nat.toDigits 16 value)

/-- The Arduino method `String::toUpperCase`: `toupper` on every character. -/
def toUpperCase (s : String) : String :=
  String.mk (s.data.map Char.toUpper)

/-- Lines 63 to 68 of `loop()`: the text `uid` built from `rfid.uid`.
Reading the byte `uidByte[i]` is `u.uidByte.getD i 0 % 256`; the default is
only met when `size` exceeds the buffer. -/
def uidString (u : Uid) : String :=
  toUpperCase
    (forUInt8 u.size
      (fun i uid =>
        let b := u.uidByte.getD i 0 % 256
        let uid := if b < 0x10 then uid ++ "0" else uid
        uid ++ stringHEX b)
      0 "")

/-! ## The sketch -/

/-- How a call ends: it returned, or it is still inside a `while(1)` after
the given number of rounds.  Either way `trace` is what it has done. -/
inductive Outcome where
  | returned (trace : List Event)
  | running (trace : List Event)
  deriving DecidableEq, Repr

/-- The events done so far by an outcome. -/
def Outcome.trace : Outcome → List Event
  | Outcome.returned t => t
  | Outcome.running t => t

/-- The first `rounds` rounds of `while(1) { body }`, a loop without exit. -/
def whileTrue (body : List Event) : Nat → List Event
  | 0 => []
  | rounds + 1 => body ++ whileTrue body rounds

/-- The sketch's `setup()`.  `versionReg` is the value returned by
`rfid.PCD_ReadRegister(rfid.VersionReg)`, stored in the byte `version`;
`rounds` bounds the observation of the `while(1)` of the error branch. -/
def setup (versionReg rounds : Nat) : Outcome :=
  let t := [Event.pinModeOutput LED_PIN,
            Event.digitalWrite LED_PIN LOW,
            Event.serialBegin 115200,
            Event.delay 1000,
            Event.serialPrintln "ESP32_BOOT_OK",
            Event.serialPrintln "RFID_INITIALIZING",
            Event.spiBegin,
            Event.pcdInit,
            Event.pcdReadVersionReg]
  let version := versionReg % 256
  if version = 0x00 ∨ version = 0xFF then
    Outcome.running
      (t ++ [Event.serialPrintln "RC522_ERROR"]
         ++ whileTrue (blinkSuccess 10 50 50 ++ [Event.delay 1000]) rounds)
  else
    Outcome.returned
      (t ++ [Event.serialPrintln "RC522_OK", Event.serialPrintln "RFID_READY"]
         ++ blinkSuccess 2 200 200)

/-- What the reader answers during one call of `loop()`: the results of
`PICC_IsNewCardPresent` and `PICC_ReadCardSerial`, and the content of
`rfid.uid` after them. -/
structure Poll where
  isNewCardPresent : Bool
  readCardSerial : Bool
  uid : Uid
  deriving DecidableEq, Repr

/-- The sketch's `loop()`.  The `||` of line 57 is short-circuit: the serial
number is only read when a new card is present. -/
def loop (p : Poll) : List Event :=
  if !p.isNewCardPresent then
    [Event.piccIsNewCardPresent, Event.delay 30]
  else if !p.readCardSerial then
    [Event.piccIsNewCardPresent, Event.piccReadCardSerial, Event.delay 30]
  else
    [Event.piccIsNewCardPresent, Event.piccReadCardSerial,
     Event.serialPrint "RFID:", Event.serialPrintln (uidString p.uid)]
      ++ blinkSuccess 3 100 100
      ++ [Event.piccHaltA, Event.pcdStopCrypto1, Event.delay 500]

/-- The Arduino entry point, `setup(); for (;;) loop();`, observed for one
call of `loop()` per element of `polls`. -/
def arduinoMain (versionReg rounds : Nat) (polls : List Poll) : List Event :=
  match setup versionReg rounds with
  | Outcome.running t => t
  | Outcome.returned t => t ++ polls.flatMap loop

/-! ## Observations -/

/-- The bytes an event puts on the serial link; `println` ends with CR LF. -/
def Event.serialBytes : Event → List Char
  | Event.serialPrint s => s.data
  | Event.serialPrintln s => s.data ++ ['\r', '\n']
  | _ => []

/-- Whether the event writes to the serial link. -/
def Event.isSerial : Event → Bool
  | Event.serialPrint _ => true
  | Event.serialPrintln _ => true
  | _ => false

/-- The milliseconds an event blocks for. -/
def Event.delayMs : Event → Nat
  | Event.delay ms => ms
  | _ => 0

/-- All bytes sent on the serial link, in order. -/
def serialOut (t : List Event) : List Char :=
  t.flatMap Event.serialBytes

/-- Time spent: the sum of the arguments of the `delay` calls. -/
def elapsed (t : List Event) : Nat :=
  (t.map Event.delayMs).sum

/-- The levels written to the LED pin, in order. -/
def ledWrites (t : List Event) : List Bool :=
  t.filterMap (fun e =>
    match e with
    | Event.digitalWrite pin level => if pin = LED_PIN then some level else none
    | _ => none)

/-- The level of the LED pin after the events, from the level before. -/
def ledAfter (before : Bool) (t : List Event) : Bool :=
  t.foldl (fun level e =>
    match e with
    | Event.digitalWrite pin v => if pin = LED_PIN then v else level
    | _ => level) before

/-- What an observer of the board sees: serial writes, LED writes, delays. -/
def observable (t : List Event) : List Event :=
  t.filter (fun e =>
    match e with
    | Event.serialPrint _ => true
    | Event.serialPrintln _ => true
    | Event.digitalWrite _ _ => true
    | Event.delay _ => true
    | _ => false)

/-- Cut a byte stream into lines at every CR LF; `cur` is the line being
read.  Bytes after the last CR LF, if any, form a last line. -/
def splitCRLF : List Char → List Char → List String
  | cur, [] => if cur = [] then [] else [String.mk cur]
  | cur, [c] => [String.mk (cur ++ [c])]
  | cur, c :: d :: rest =>
      if c = '\r' ∧ d = '\n' then String.mk cur :: splitCRLF [] rest
      else splitCRLF (cur ++ [c]) (d :: rest)

/-- The lines sent on the serial link. -/
def serialLines (t : List Event) : List String :=
  splitCRLF [] (serialOut t)

/-! ## Specification-side definitions

The notions the specification speaks of, written from its words: the
upper-case hex text of a byte sequence, the alphabet `0-9A-F`, standard hex
decoding, and a pulse of the status pattern. -/

/-- One pulse of the status pattern: pin high, wait `onMs`, pin low, wait
`offMs`. -/
def pulse (onMs offMs : Nat) : List Event :=
  [Event.digitalWrite LED_PIN HIGH, Event.delay onMs,
   Event.digitalWrite LED_PIN LOW, Event.delay offMs]

/-- Upper-case hexadecimal digit of a value below 16. -/
def upperHexDigit (d : Nat) : Char :=
  if d < 10 then Char.ofNat (48 + d) else Char.ofNat (55 + d)

/-- Two upper-case hexadecimal characters per byte, high nibble first, no
separators. -/
def upperHex (bytes : List Nat) : List Char :=
  bytes.flatMap (fun b => [upperHexDigit (b / 16), upperHexDigit (b % 16)])

/-- A character of `0-9` or `A-F`. -/
def isUpperHexChar (c : Char) : Bool :=
  (decide ('0' ≤ c) && decide (c ≤ '9')) || (decide ('A' ≤ c) && decide (c ≤ 'F'))

/-- Value of a hexadecimal digit, either case. -/
def hexVal (c : Char) : Option Nat :=
  if '0' ≤ c ∧ c ≤ '9' then some (c.toNat - 48)
  else if 'A' ≤ c ∧ c ≤ 'F' then some (c.toNat - 55)
  else if 'a' ≤ c ∧ c ≤ 'f' then some (c.toNat - 87)
  else none

/-- Standard hex decoding: each consecutive pair of characters is one byte,
high nibble first; `none` on an odd length or a character that is no digit. -/
def hexDecode : List Char → Option (List Nat)
  | [] => some []
  | [_] => none
  | hi :: lo :: rest =>
    match hexVal hi, hexVal lo, hexDecode rest with
    | some h, some l, some bs => some ((16 * h + l) :: bs)
    | _, _, _ => none

/-! ## Auxiliary definitions -/

/-- The characters one byte adds to `uid` in the loop of lines 64 to 67,
before the final `toUpperCase`. -/
def bytePiece (b : Nat) : List Char :=
  (if b < 0x10 then ['0'] else []) ++ Nat.toDigits 16 b

/-- The bytes the formatting loop reads from `rfid.uid`. -/
def uidBytes (u : Uid) : List Nat :=
  (List.range (u.size % 256)).map (fun i => u.uidByte.getD i 0 % 256)

/-- The text of the line reporting a card. -/
def rfidLine (u : Uid) : String :=
  "RFID:" ++ uidString u

/-- Whether a call of `loop()` gets past the check of line 57. -/
def Poll.cardRead (p : Poll) : Bool :=
  p.isNewCardPresent && p.readCardSerial

/-- What `loop()` does after `Serial.print("RFID:")` once `uid` is built. -/
def afterPrint (s : String) : List Event :=
  Event.serialPrintln s
    :: ((List.replicate 3 (pulse 100 100)).flatten
        ++ [Event.piccHaltA, Event.pcdStopCrypto1, Event.delay 500])

/-! ## Closed forms of the loops -/

theorem forUInt8_from {σ : Type} (n : Nat) (body : Nat → σ → σ) :
    ∀ (k i : Nat) (s : σ), i + k = n % 256 →
      forUInt8 n body i s = (List.range' i k).foldl (fun acc j => body j acc) s := by
  intro k
  induction k with
  | zero =>
    intro i s h
    rw [forUInt8]
    simp
    omega
  | succ k ih =>
    intro i s h
    have hn : n % 256 < 256 := Nat.mod_lt _ (by decide)
    have hi : (i + 1) % 256 = i + 1 := Nat.mod_eq_of_lt (by omega)
    rw [forUInt8, if_pos (by omega), hi, ih (i + 1) (body i s) (by omega)]
    simp [List.range'_succ]

theorem forUInt8_eq_foldl {σ : Type} (n : Nat) (body : Nat → σ → σ) (s : σ) :
    forUInt8 n body 0 s = (List.range (n % 256)).foldl (fun acc j => body j acc) s := by
  rw [forUInt8_from n body (n % 256) 0 s (by omega), List.range_eq_range']

theorem foldl_append_const {α β : Type} (p : List α) (l : List β) (acc : List α) :
    l.foldl (fun t _ => t ++ p) acc = acc ++ (List.replicate l.length p).flatten := by
  induction l generalizing acc with
  | nil => simp
  | cons x l ih => simp [ih, List.replicate_succ]

theorem blinkSuccess_eq (times onMs offMs : Nat) :
    blinkSuccess times onMs offMs
      = (List.replicate (times % 256) (pulse (onMs % 65536) (offMs % 65536))).flatten := by
  unfold blinkSuccess
  rw [forUInt8_eq_foldl]
  have h := foldl_append_const (pulse (onMs % 65536) (offMs % 65536)) (List.range (times % 256)) []
  simpa [pulse] using h

/-! ## Identifier formatting -/

set_option maxRecDepth 100000 in
theorem bytePiece_upper : ∀ b, b < 256 →
    (bytePiece b).map Char.toUpper = [upperHexDigit (b / 16), upperHexDigit (b % 16)] := by
  decide

set_option maxRecDepth 100000 in
theorem upperHexDigit_char : ∀ d, d < 16 → isUpperHexChar (upperHexDigit d) = true := by
  decide

set_option maxRecDepth 100000 in
theorem upperHexDigit_val : ∀ d, d < 16 → hexVal (upperHexDigit d) = some d := by
  decide

theorem foldl_string_data (g : Nat → String → String) (piece : Nat → List Char)
    (hg : ∀ i acc, (g i acc).data = acc.data ++ piece i) (l : List Nat) (acc : String) :
    (l.foldl (fun s i => g i s) acc).data = acc.data ++ l.flatMap piece := by
  induction l generalizing acc with
  | nil => simp
  | cons x l ih => simp [ih, hg]

theorem uidString_data (u : Uid) : (uidString u).data = upperHex (uidBytes u) := by
  unfold uidString
  rw [forUInt8_eq_foldl]
  have h := foldl_string_data
    (fun i uid =>
        let b := u.uidByte.getD i 0 % 256
        let uid := if b < 0x10 then uid ++ "0" else uid
        uid ++ stringHEX b)
    (fun i => bytePiece (u.uidByte.getD i 0 % 256))
    (by
      intro i acc
      simp only [bytePiece, stringHEX, String.data_append]
      split <;> simp [String.data_append])
    (List.range (u.size % 256)) ""
  simp only [toUpperCase, h]
  simp only [upperHex, uidBytes, List.flatMap_map, List.map_flatMap, List.nil_append,
    show "".data = [] from rfl]
  congr 1
  funext i
  exact bytePiece_upper _ (Nat.mod_lt _ (by decide))

theorem uidBytes_eq_take (u : Uid) (hsize : u.size < 256) (hbuf : u.size ≤ u.uidByte.length)
    (hbyte : ∀ b ∈ u.uidByte, b < 256) : uidBytes u = u.uidByte.take u.size := by
  unfold uidBytes
  rw [Nat.mod_eq_of_lt hsize]
  apply List.ext_getElem
  · simp [hbuf]
  · intro i h1 h2
    simp at h1 h2
    have hi : i < u.uidByte.length := by omega
    have hm : u.uidByte[i] < 256 := hbyte _ (List.getElem_mem hi)
    simp [List.getElem?_eq_getElem hi]
    exact hm

theorem hexDecode_upperHex (bytes : List Nat) (h : ∀ b ∈ bytes, b < 256) :
    hexDecode (upperHex bytes) = some bytes := by
  induction bytes with
  | nil => rfl
  | cons b bs ih =>
    have hb : b < 256 := h b (List.mem_cons_self _ _)
    have ih2 := ih (fun x hx => h x (List.mem_cons_of_mem _ hx))
    have e : upperHex (b :: bs)
        = upperHexDigit (b / 16) :: upperHexDigit (b % 16) :: upperHex bs := by
      simp [upperHex]
    rw [e, hexDecode, upperHexDigit_val _ (by omega), upperHexDigit_val _ (by omega), ih2]
    simp
    omega

theorem upperHex_length (bytes : List Nat) : (upperHex bytes).length = 2 * bytes.length := by
  induction bytes with
  | nil => rfl
  | cons b bs ih =>
    have e : upperHex (b :: bs)
        = upperHexDigit (b / 16) :: upperHexDigit (b % 16) :: upperHex bs := by
      simp [upperHex]
    rw [e]
    simp [ih]
    omega

theorem upperHex_chars (bytes : List Nat) (h : ∀ b ∈ bytes, b < 256) :
    ∀ c ∈ upperHex bytes, isUpperHexChar c = true := by
  intro c hc
  simp only [upperHex, List.mem_flatMap] at hc
  obtain ⟨b, hb, hc⟩ := hc
  have hb2 := h b hb
  simp at hc
  rcases hc with rfl | rfl
  · exact upperHexDigit_char _ (by omega)
  · exact upperHexDigit_char _ (by omega)

theorem uidBytes_lt (u : Uid) : ∀ b ∈ uidBytes u, b < 256 := by
  intro b hb
  simp only [uidBytes, List.mem_map] at hb
  obtain ⟨i, _, rfl⟩ := hb
  exact Nat.mod_lt _ (by decide)

/-! ## Observations of composed traces -/

theorem serialOut_append (a b : List Event) : serialOut (a ++ b) = serialOut a ++ serialOut b := by
  simp [serialOut]

theorem elapsed_append (a b : List Event) : elapsed (a ++ b) = elapsed a + elapsed b := by
  simp [elapsed]

theorem ledWrites_append (a b : List Event) : ledWrites (a ++ b) = ledWrites a ++ ledWrites b := by
  simp [ledWrites]

theorem ledAfter_append (before : Bool) (a b : List Event) :
    ledAfter before (a ++ b) = ledAfter (ledAfter before a) b := by
  simp [ledAfter]

theorem whileTrue_eq (body : List Event) (n : Nat) :
    whileTrue body n = (List.replicate n body).flatten := by
  induction n with
  | zero => rfl
  | succ n ih => simp [whileTrue, ih, List.replicate_succ]

theorem flatten_replicate_succ_end {α : Type} (body : List α) (n : Nat) :
    (List.replicate (n + 1) body).flatten = (List.replicate n body).flatten ++ body := by
  induction n with
  | zero => simp [List.replicate_succ]
  | succ n ih =>
    calc (List.replicate (n + 1 + 1) body).flatten
        = body ++ (List.replicate (n + 1) body).flatten := by simp [List.replicate_succ]
      _ = body ++ ((List.replicate n body).flatten ++ body) := by rw [ih]
      _ = (body ++ (List.replicate n body).flatten) ++ body := by rw [List.append_assoc]
      _ = (List.replicate (n + 1) body).flatten ++ body := by simp [List.replicate_succ]

theorem serialOut_replicate (body : List Event) (h : serialOut body = []) (n : Nat) :
    serialOut (List.replicate n body).flatten = [] := by
  induction n with
  | zero => rfl
  | succ n ih => simp [List.replicate_succ, serialOut_append, h, ih]

theorem elapsed_replicate (body : List Event) (n : Nat) :
    elapsed (List.replicate n body).flatten = n * elapsed body := by
  induction n with
  | zero => simp [elapsed]
  | succ n ih =>
    simp only [List.replicate_succ, List.flatten_cons, elapsed_append, ih]
    rw [Nat.succ_mul]
    omega

theorem ledWrites_pulses (n onMs offMs : Nat) :
    ledWrites (List.replicate n (pulse onMs offMs)).flatten
      = (List.replicate n [HIGH, LOW]).flatten := by
  induction n with
  | zero => rfl
  | succ n ih =>
    simp only [List.replicate_succ, List.flatten_cons, ledWrites_append, ih]
    rfl

theorem ledAfter_pulses (before : Bool) (n onMs offMs : Nat) :
    ledAfter before (List.replicate n (pulse onMs offMs)).flatten
      = if n = 0 then before else LOW := by
  induction n generalizing before with
  | zero => rfl
  | succ n ih =>
    simp only [List.replicate_succ, List.flatten_cons, ledAfter_append, ih]
    have h : ledAfter before (pulse onMs offMs) = LOW := rfl
    rw [h]
    split <;> simp

theorem elapsed_pulse (onMs offMs : Nat) : elapsed (pulse onMs offMs) = onMs + offMs := by
  simp [elapsed, pulse, Event.delayMs]

theorem serialOut_pulse (onMs offMs : Nat) : serialOut (pulse onMs offMs) = [] := rfl

theorem serialOut_blinkSuccess (times onMs offMs : Nat) :
    serialOut (blinkSuccess times onMs offMs) = [] := by
  rw [blinkSuccess_eq]
  exact serialOut_replicate _ (serialOut_pulse _ _) _

/-! ## Lines of the serial stream -/

theorem splitCRLF_line (l : List Char) (h : '\r' ∉ l) (cur rest : List Char) :
    splitCRLF cur (l ++ '\r' :: '\n' :: rest) = String.mk (cur ++ l) :: splitCRLF [] rest := by
  induction l generalizing cur with
  | nil => simp [splitCRLF]
  | cons x l ih =>
    have hx : x ≠ '\r' := fun e => h (e ▸ List.mem_cons_self _ _)
    have hl : '\r' ∉ l := fun m => h (List.mem_cons_of_mem _ m)
    cases l with
    | nil =>
      have e : [x] ++ '\r' :: '\n' :: rest = x :: '\r' :: '\n' :: rest := rfl
      rw [e, splitCRLF, if_neg (fun c => hx c.1)]
      simpa using ih hl (cur ++ [x])
    | cons y l =>
      have e : (x :: y :: l) ++ '\r' :: '\n' :: rest = x :: y :: (l ++ '\r' :: '\n' :: rest) := rfl
      rw [e, splitCRLF, if_neg (fun c => hx c.1)]
      simpa using ih hl (cur ++ [x])

theorem upperHex_no_cr (bytes : List Nat) (h : ∀ b ∈ bytes, b < 256) : '\r' ∉ upperHex bytes := by
  intro hm
  have := upperHex_chars bytes h _ hm
  revert this
  decide

theorem uidString_no_cr (u : Uid) : '\r' ∉ (uidString u).data := by
  rw [uidString_data]
  exact upperHex_no_cr _ (uidBytes_lt u)

theorem loop_of_cardRead (p : Poll) (h : p.cardRead = true) :
    loop p = [Event.piccIsNewCardPresent, Event.piccReadCardSerial,
              Event.serialPrint "RFID:", Event.serialPrintln (uidString p.uid)]
              ++ (List.replicate 3 (pulse 100 100)).flatten
              ++ [Event.piccHaltA, Event.pcdStopCrypto1, Event.delay 500] := by
  simp only [Poll.cardRead, Bool.and_eq_true] at h
  simp [loop, h.1, h.2, blinkSuccess_eq]

theorem loop_of_not_cardRead (p : Poll) (h : p.cardRead = false) :
    loop p = (if p.isNewCardPresent
                then [Event.piccIsNewCardPresent, Event.piccReadCardSerial, Event.delay 30]
                else [Event.piccIsNewCardPresent, Event.delay 30]) := by
  simp only [Poll.cardRead, Bool.and_eq_false_iff] at h
  cases hp : p.isNewCardPresent with
  | false => simp [loop, hp]
  | true =>
    have hr : p.readCardSerial = false := by
      rcases h with h | h
      · rw [hp] at h; cases h
      · exact h
    simp [loop, hp, hr]

theorem serialOut_loop (p : Poll) :
    serialOut (loop p)
      = if p.cardRead then (rfidLine p.uid).data ++ ['\r', '\n'] else [] := by
  cases h : p.cardRead with
  | true =>
    rw [loop_of_cardRead p h]
    simp [serialOut, Event.serialBytes, pulse, rfidLine, String.data_append, List.replicate_succ]
  | false =>
    rw [loop_of_not_cardRead p h]
    cases p.isNewCardPresent <;> simp [serialOut, Event.serialBytes]

theorem rfidLine_no_cr (u : Uid) : '\r' ∉ (rfidLine u).data := by
  simp only [rfidLine, String.data_append, List.mem_append, not_or]
  exact ⟨by decide, uidString_no_cr u⟩

theorem serialLines_polls (polls : List Poll) :
    splitCRLF [] (serialOut (polls.flatMap loop))
      = (polls.filter Poll.cardRead).map (fun p => rfidLine p.uid) := by
  induction polls with
  | nil => rfl
  | cons p ps ih =>
    rw [List.flatMap_cons, serialOut_append, serialOut_loop]
    cases h : p.cardRead with
    | true =>
      simp only [if_true, List.append_assoc, List.cons_append, List.nil_append]
      rw [splitCRLF_line _ (rfidLine_no_cr p.uid), ih]
      simp [List.filter_cons, h]
    | false =>
      simp [List.filter_cons, h, ih]

/-! ## The two branches of `setup()` -/

theorem setup_fault (versionReg rounds : Nat)
    (h : versionReg % 256 = 0x00 ∨ versionReg % 256 = 0xFF) :
    setup versionReg rounds
      = Outcome.running
          ([Event.pinModeOutput LED_PIN, Event.digitalWrite LED_PIN LOW,
            Event.serialBegin 115200, Event.delay 1000,
            Event.serialPrintln "ESP32_BOOT_OK", Event.serialPrintln "RFID_INITIALIZING",
            Event.spiBegin, Event.pcdInit, Event.pcdReadVersionReg,
            Event.serialPrintln "RC522_ERROR"]
           ++ (List.replicate rounds
                ((List.replicate 10 (pulse 50 50)).flatten ++ [Event.delay 1000])).flatten) := by
  unfold setup
  simp only [if_pos h, whileTrue_eq, blinkSuccess_eq]
  simp

theorem setup_ready (versionReg rounds : Nat)
    (h : ¬ (versionReg % 256 = 0x00 ∨ versionReg % 256 = 0xFF)) :
    setup versionReg rounds
      = Outcome.returned
          ([Event.pinModeOutput LED_PIN, Event.digitalWrite LED_PIN LOW,
            Event.serialBegin 115200, Event.delay 1000,
            Event.serialPrintln "ESP32_BOOT_OK", Event.serialPrintln "RFID_INITIALIZING",
            Event.spiBegin, Event.pcdInit, Event.pcdReadVersionReg,
            Event.serialPrintln "RC522_OK", Event.serialPrintln "RFID_READY"]
           ++ (List.replicate 2 (pulse 200 200)).flatten) := by
  unfold setup
  simp only [if_neg h, blinkSuccess_eq]
  simp

theorem splitCRLF_lines (ls : List (List Char)) (h : ∀ l ∈ ls, '\r' ∉ l) (rest : List Char) :
    splitCRLF [] (ls.flatMap (fun l => l ++ ['\r', '\n']) ++ rest)
      = ls.map String.mk ++ splitCRLF [] rest := by
  induction ls with
  | nil => simp
  | cons l ls ih =>
    have h1 : '\r' ∉ l := h l (List.mem_cons_self _ _)
    have h2 : ∀ x ∈ ls, '\r' ∉ x := fun x hx => h x (List.mem_cons_of_mem _ hx)
    simp only [List.flatMap_cons, List.append_assoc, List.cons_append, List.nil_append,
      List.map_cons]
    rw [splitCRLF_line l h1, ih h2]
    simp

theorem rfidLine_ne (u : Uid) (s : String) (h : s.data.take 5 ≠ ['R', 'F', 'I', 'D', ':']) :
    rfidLine u ≠ s := by
  intro e
  apply h
  rw [← e]
  simp [rfidLine, String.data_append]

theorem mem_fault_round (e : Event)
    (h : e ∈ (List.replicate 10 (pulse 50 50)).flatten ++ [Event.delay 1000]) :
    e = Event.digitalWrite LED_PIN HIGH ∨ e = Event.digitalWrite LED_PIN LOW
      ∨ e = Event.delay 50 ∨ e = Event.delay 1000 := by
  simp [pulse, List.mem_replicate] at h
  tauto

/-! ## Where the report of a card sits in a run -/

theorem split_after_free {α : Type} {x y a rest : List α} {e : α}
    (h : x ++ y = a ++ e :: rest) (hx : e ∉ x) :
    ∃ a', a = x ++ a' ∧ y = a' ++ e :: rest := by
  rcases List.append_eq_append_iff.mp h with ⟨a', ha, hy⟩ | ⟨c', hxa, hc⟩
  · exact ⟨a', ha, hy⟩
  · cases c' with
    | nil =>
      refine ⟨[], ?_, ?_⟩
      · simpa using hxa.symm
      · simpa using hc.symm
    | cons z c' =>
      exfalso
      apply hx
      simp only [List.cons_append, List.cons.injEq] at hc
      rw [hxa, hc.1]
      simp

theorem split_in_first {α : Type} {x y a rest : List α} {e : α}
    (h : x ++ y = a ++ e :: rest) :
    (∃ r, x = a ++ e :: r ∧ rest = r ++ y) ∨ (∃ a', a = x ++ a' ∧ y = a' ++ e :: rest) := by
  rcases List.append_eq_append_iff.mp h with ⟨a', ha, hy⟩ | ⟨c', hxa, hc⟩
  · exact Or.inr ⟨a', ha, hy⟩
  · cases c' with
    | nil =>
      refine Or.inr ⟨[], ?_, ?_⟩
      · simpa using hxa.symm
      · simpa using hc.symm
    | cons z c' =>
      simp only [List.cons_append, List.cons.injEq] at hc
      refine Or.inl ⟨c', ?_, hc.2⟩
      rw [hxa, hc.1]

theorem print_in_loop (p : Poll) (a r : List Event)
    (h : loop p = a ++ Event.serialPrint "RFID:" :: r) :
    r = afterPrint (uidString p.uid) := by
  cases hc : p.cardRead with
  | false =>
    exfalso
    have hm : Event.serialPrint "RFID:" ∈ loop p := by
      rw [h]
      simp
    rw [loop_of_not_cardRead p hc] at hm
    split at hm <;> simp at hm
  | true =>
    rw [loop_of_cardRead p hc] at h
    have e : [Event.piccIsNewCardPresent, Event.piccReadCardSerial,
              Event.serialPrint "RFID:", Event.serialPrintln (uidString p.uid)]
              ++ (List.replicate 3 (pulse 100 100)).flatten
              ++ [Event.piccHaltA, Event.pcdStopCrypto1, Event.delay 500]
        = [Event.piccIsNewCardPresent, Event.piccReadCardSerial]
            ++ Event.serialPrint "RFID:" :: afterPrint (uidString p.uid) := by
      simp [afterPrint]
    rw [e] at h
    have h2 := (List.append_cons_inj_of_not_mem (by decide)
      (by simp [afterPrint, pulse, List.mem_replicate])).mp h
    exact h2.2.2.symm

theorem print_in_polls (polls : List Poll) (a rest : List Event)
    (h : polls.flatMap loop = a ++ Event.serialPrint "RFID:" :: rest) :
    ∃ (u : Uid) (rest' : List Event), rest = afterPrint (uidString u) ++ rest' := by
  induction polls generalizing a with
  | nil => simp at h
  | cons p ps ih =>
    rw [List.flatMap_cons] at h
    rcases split_in_first h with ⟨r, hr, hrest⟩ | ⟨a', _, hy⟩
    · exact ⟨p.uid, ps.flatMap loop, by rw [hrest, print_in_loop p a r hr]⟩
    · exact ih a' hy

theorem print_in_run (versionReg rounds : Nat) (polls : List Poll) (a rest : List Event)
    (h : arduinoMain versionReg rounds polls = a ++ Event.serialPrint "RFID:" :: rest) :
    ∃ (u : Uid) (rest' : List Event), rest = afterPrint (uidString u) ++ rest' := by
  by_cases hv : versionReg % 256 = 0x00 ∨ versionReg % 256 = 0xFF
  · exfalso
    have hm : Event.serialPrint "RFID:" ∈ arduinoMain versionReg rounds polls := by
      rw [h]
      simp
    simp only [arduinoMain, setup_fault versionReg rounds hv, List.mem_append, List.mem_flatten,
      List.mem_replicate] at hm
    rcases hm with hm | ⟨l, ⟨_, rfl⟩, hl⟩
    · revert hm
      decide
    · rcases mem_fault_round _ hl with h | h | h | h <;> cases h
  · simp only [arduinoMain, setup_ready versionReg rounds hv] at h
    obtain ⟨a', _, hy⟩ := split_after_free h (by decide)
    exact print_in_polls polls a' rest hy

theorem quiet_until {q b c rest : List Event} {e : Event}
    (hq : ∀ x ∈ q, x.isSerial = false) (he : e.isSerial = true)
    (h : b ++ e :: c = q ++ rest) : ∃ b', b = q ++ b' := by
  obtain ⟨a', ha, _⟩ := split_after_free h.symm (fun hm => by
    have := hq e hm
    rw [he] at this
    cases this)
  exact ⟨a', ha⟩

/-! ## Claims -/

/-- C1: for every byte sequence of length 4 to 10 held in `rfid.uid`
(`uidByte[0..size-1]`), the text `uid` built by `loop()` decodes back to
exactly that byte sequence under standard hex decoding. -/
theorem uid_hex_roundtrip (u : Uid) (hlen : 4 ≤ u.size ∧ u.size ≤ 10)
    (hbuf : u.size ≤ u.uidByte.length) (hbyte : ∀ b ∈ u.uidByte, b < 256) :
    hexDecode (uidString u).data = some (u.uidByte.take u.size) := by
  rw [uidString_data, uidBytes_eq_take u (by omega) hbuf hbyte]
  exact hexDecode_upperHex _ (fun b hb => hbyte b (List.mem_of_mem_take hb))

/-- Witness of C1 on the card 04 A3 BC 1D held in the 10-byte buffer. -/
theorem uid_hex_roundtrip_witness :
    hexDecode (uidString (Uid.mk 4 [0x04, 0xA3, 0xBC, 0x1D, 0, 0, 0, 0, 0, 0])).data
      = some [0x04, 0xA3, 0xBC, 0x1D] :=
  uid_hex_roundtrip (Uid.mk 4 [0x04, 0xA3, 0xBC, 0x1D, 0, 0, 0, 0, 0, 0])
    (by decide) (by decide) (by decide)

/-- C2: for every identifier buffer, the text built in `loop()` has length
exactly twice the number of identifier bytes, every character is in `0-9` or
`A-F`, and each byte contributes exactly its two upper-case hex digits. -/
theorem uid_hex_shape (u : Uid) (hsize : u.size < 256)
    (hbuf : u.size ≤ u.uidByte.length) (hbyte : ∀ b ∈ u.uidByte, b < 256) :
    (uidString u).length = 2 * (u.uidByte.take u.size).length
      ∧ (∀ c ∈ (uidString u).data, isUpperHexChar c = true)
      ∧ (uidString u).data = upperHex (u.uidByte.take u.size) := by
  have hd : (uidString u).data = upperHex (u.uidByte.take u.size) := by
    rw [uidString_data, uidBytes_eq_take u hsize hbuf hbyte]
  refine ⟨?_, ?_, hd⟩
  · show (uidString u).data.length = _
    rw [hd, upperHex_length]
  · rw [hd]
    exact upperHex_chars _ (fun b hb => hbyte b (List.mem_of_mem_take hb))

/-- Witness of C2 on a 7-byte identifier with small and large bytes. -/
theorem uid_hex_shape_witness :
    (uidString (Uid.mk 7 [0x00, 0x0F, 0x10, 0xFF, 0x9A, 0x05, 0xC0, 0, 0, 0])).length
        = 2 * (List.take 7 [0x00, 0x0F, 0x10, 0xFF, 0x9A, 0x05, 0xC0, 0, 0, 0]).length
      ∧ (∀ c ∈ (uidString (Uid.mk 7 [0x00, 0x0F, 0x10, 0xFF, 0x9A, 0x05, 0xC0, 0, 0, 0])).data,
          isUpperHexChar c = true)
      ∧ (uidString (Uid.mk 7 [0x00, 0x0F, 0x10, 0xFF, 0x9A, 0x05, 0xC0, 0, 0, 0])).data
          = upperHex (List.take 7 [0x00, 0x0F, 0x10, 0xFF, 0x9A, 0x05, 0xC0, 0, 0, 0]) :=
  uid_hex_shape (Uid.mk 7 [0x00, 0x0F, 0x10, 0xFF, 0x9A, 0x05, 0xC0, 0, 0, 0])
    (by decide) (by decide) (by decide)

/-- C7, refuted as stated: called with `times = 0` while the LED pin is high,
`blinkSuccess` performs no write and the pin is still high on return. -/
theorem blinkSuccess_zero_leaves_pin_high :
    ¬ (ledAfter HIGH (blinkSuccess 0 100 100) = LOW) := by
  rw [blinkSuccess_eq]
  decide

/-- C7, amended: for every `times` (uint8), `onMs` and `offMs` (uint16) and
every level of the LED pin before the call, `blinkSuccess` is `times` pulses
(pin high, wait `onMs`, pin low, wait `offMs`); its delays total
`times * (onMs + offMs)` ms; it writes the pin high then low `times` times;
and the pin is left low when `times` is not 0, unchanged when it is 0. -/
theorem blinkSuccess_contract (times onMs offMs : Nat) (before : Bool)
    (ht : times < 256) (hon : onMs < 65536) (hoff : offMs < 65536) :
    blinkSuccess times onMs offMs = (List.replicate times (pulse onMs offMs)).flatten
      ∧ elapsed (blinkSuccess times onMs offMs) = times * (onMs + offMs)
      ∧ ledWrites (blinkSuccess times onMs offMs) = (List.replicate times [HIGH, LOW]).flatten
      ∧ ledAfter before (blinkSuccess times onMs offMs) = (if times = 0 then before else LOW) := by
  have h : blinkSuccess times onMs offMs = (List.replicate times (pulse onMs offMs)).flatten := by
    rw [blinkSuccess_eq, Nat.mod_eq_of_lt ht, Nat.mod_eq_of_lt hon, Nat.mod_eq_of_lt hoff]
  refine ⟨h, ?_, ?_, ?_⟩
  · rw [h, elapsed_replicate, elapsed_pulse]
  · rw [h, ledWrites_pulses]
  · rw [h, ledAfter_pulses]

/-- Witness of the amended C7 on the call `blinkSuccess(3, 100, 100)` with the
pin high before. -/
theorem blinkSuccess_contract_witness :
    blinkSuccess 3 100 100 = (List.replicate 3 (pulse 100 100)).flatten
      ∧ elapsed (blinkSuccess 3 100 100) = 3 * (100 + 100)
      ∧ ledWrites (blinkSuccess 3 100 100) = (List.replicate 3 [HIGH, LOW]).flatten
      ∧ ledAfter HIGH (blinkSuccess 3 100 100) = (if 3 = 0 then HIGH else LOW) :=
  blinkSuccess_contract 3 100 100 HIGH (by decide) (by decide) (by decide)

/-- C6: a call of `loop()` in which `PICC_IsNewCardPresent` fails, or it
succeeds and `PICC_ReadCardSerial` fails, only asks the reader and waits
30 ms: nothing is sent on the serial link, no pin is written, the card is not
halted and the crypto session not stopped; what an observer sees is the one
30 ms delay, the same in both cases. -/
theorem loop_idle (p : Poll)
    (h : p.isNewCardPresent = false ∨ (p.isNewCardPresent = true ∧ p.readCardSerial = false)) :
    loop p = (if p.isNewCardPresent
                then [Event.piccIsNewCardPresent, Event.piccReadCardSerial, Event.delay 30]
                else [Event.piccIsNewCardPresent, Event.delay 30])
      ∧ serialOut (loop p) = []
      ∧ (∀ pin level, Event.digitalWrite pin level ∉ loop p)
      ∧ Event.piccHaltA ∉ loop p
      ∧ Event.pcdStopCrypto1 ∉ loop p
      ∧ elapsed (loop p) = 30
      ∧ observable (loop p) = [Event.delay 30] := by
  rcases h with h | ⟨h1, h2⟩
  · simp [loop, h, serialOut, elapsed, observable, Event.serialBytes, Event.delayMs]
  · simp [loop, h1, h2, serialOut, elapsed, observable, Event.serialBytes, Event.delayMs]

/-- Witness of C6 on a card that is present but whose serial cannot be read. -/
theorem loop_idle_witness :
    observable (loop (Poll.mk true false (Uid.mk 0 []))) = [Event.delay 30] :=
  (loop_idle (Poll.mk true false (Uid.mk 0 [])) (Or.inr ⟨rfl, rfl⟩)).2.2.2.2.2.2

/-- C3: when the version register reads 0x00 or 0xFF, the serial output of
the whole program, however long it runs, is exactly the three lines
ESP32_BOOT_OK, RFID_INITIALIZING, RC522_ERROR: `setup()` never returns, the
rounds of its error loop send nothing, and `loop()` is never called. -/
theorem fault_serial_output (versionReg rounds : Nat) (polls : List Poll)
    (hv : versionReg = 0x00 ∨ versionReg = 0xFF) :
    serialLines (arduinoMain versionReg rounds polls)
        = ["ESP32_BOOT_OK", "RFID_INITIALIZING", "RC522_ERROR"]
      ∧ serialOut (arduinoMain versionReg rounds polls)
          = "ESP32_BOOT_OK\r\nRFID_INITIALIZING\r\nRC522_ERROR\r\n".data
      ∧ (∀ t, setup versionReg rounds ≠ Outcome.returned t)
      ∧ arduinoMain versionReg rounds polls = (setup versionReg rounds).trace
      ∧ serialOut (whileTrue (blinkSuccess 10 50 50 ++ [Event.delay 1000]) rounds) = []
      ∧ Event.piccIsNewCardPresent ∉ arduinoMain versionReg rounds polls := by
  have hm : versionReg % 256 = 0x00 ∨ versionReg % 256 = 0xFF := by
    rcases hv with rfl | rfl
    · exact Or.inl rfl
    · exact Or.inr rfl
  have hs := setup_fault versionReg rounds hm
  have hq : serialOut (List.replicate rounds
      ((List.replicate 10 (pulse 50 50)).flatten ++ [Event.delay 1000])).flatten = [] :=
    serialOut_replicate _ (by decide) _
  have hout : serialOut (arduinoMain versionReg rounds polls)
      = "ESP32_BOOT_OK\r\nRFID_INITIALIZING\r\nRC522_ERROR\r\n".data := by
    simp only [arduinoMain, hs, serialOut_append, hq, List.append_nil]
    rfl
  refine ⟨?_, hout, ?_, ?_, ?_, ?_⟩
  · simp only [serialLines, hout]
    decide
  · intro t
    rw [hs]
    simp
  · simp [arduinoMain, hs, Outcome.trace]
  · rw [whileTrue_eq, blinkSuccess_eq]
    exact hq
  · simp only [arduinoMain, hs, List.mem_append, List.mem_flatten, List.mem_replicate, not_or]
    refine ⟨by decide, ?_⟩
    rintro ⟨l, ⟨_, rfl⟩, hl⟩
    rcases mem_fault_round _ hl with h | h | h | h <;> cases h

/-- Witness of C3 on version 0x00, three rounds of the error loop and one
readable card in front of the reader. -/
theorem fault_serial_output_witness :
    serialLines (arduinoMain 0x00 3
        [Poll.mk true true (Uid.mk 4 [0x04, 0xA3, 0xBC, 0x1D, 0, 0, 0, 0, 0, 0])])
      = ["ESP32_BOOT_OK", "RFID_INITIALIZING", "RC522_ERROR"] :=
  (fault_serial_output 0x00 3
    [Poll.mk true true (Uid.mk 4 [0x04, 0xA3, 0xBC, 0x1D, 0, 0, 0, 0, 0, 0])]
    (Or.inl rfl)).1

/-- C4: when the version register reads any byte other than 0x00 and 0xFF,
`setup()` returns having sent exactly the four lines ESP32_BOOT_OK,
RFID_INITIALIZING, RC522_OK, RFID_READY; in the whole run these four lines
come first, every later line is an `RFID:` line of a card that was read,
RC522_OK and RFID_READY occur exactly once and RC522_ERROR never. -/
theorem ready_serial_output (versionReg rounds : Nat) (polls : List Poll)
    (hbyte : versionReg < 256) (h0 : versionReg ≠ 0x00) (hFF : versionReg ≠ 0xFF) :
    (∃ t, setup versionReg rounds = Outcome.returned t
        ∧ serialOut t = "ESP32_BOOT_OK\r\nRFID_INITIALIZING\r\nRC522_OK\r\nRFID_READY\r\n".data
        ∧ serialLines t = ["ESP32_BOOT_OK", "RFID_INITIALIZING", "RC522_OK", "RFID_READY"])
      ∧ serialLines (arduinoMain versionReg rounds polls)
          = ["ESP32_BOOT_OK", "RFID_INITIALIZING", "RC522_OK", "RFID_READY"]
              ++ (polls.filter Poll.cardRead).map (fun p => rfidLine p.uid)
      ∧ (serialLines (arduinoMain versionReg rounds polls)).count "RC522_OK" = 1
      ∧ (serialLines (arduinoMain versionReg rounds polls)).count "RFID_READY" = 1
      ∧ "RC522_ERROR" ∉ serialLines (arduinoMain versionReg rounds polls) := by
  have hm : ¬ (versionReg % 256 = 0x00 ∨ versionReg % 256 = 0xFF) := by
    rw [Nat.mod_eq_of_lt hbyte]
    exact fun h => h.elim h0 hFF
  have hs := setup_ready versionReg rounds hm
  have hq : serialOut (List.replicate 2 (pulse 200 200)).flatten = [] :=
    serialOut_replicate _ (by decide) _
  have hlines : serialLines (arduinoMain versionReg rounds polls)
      = ["ESP32_BOOT_OK", "RFID_INITIALIZING", "RC522_OK", "RFID_READY"]
          ++ (polls.filter Poll.cardRead).map (fun p => rfidLine p.uid) := by
    simp only [serialLines, arduinoMain, hs, serialOut_append, hq, List.nil_append]
    have e := splitCRLF_lines
      ["ESP32_BOOT_OK".data, "RFID_INITIALIZING".data, "RC522_OK".data, "RFID_READY".data]
      (by decide) (serialOut (polls.flatMap loop))
    rw [serialLines_polls] at e
    exact e
  have hne : ∀ s : String, s.data.take 5 ≠ ['R', 'F', 'I', 'D', ':'] →
      s ∉ (polls.filter Poll.cardRead).map (fun p => rfidLine p.uid) := by
    intro s hsne hmem
    simp only [List.mem_map] at hmem
    obtain ⟨p, _, hp⟩ := hmem
    exact rfidLine_ne p.uid s hsne hp
  refine ⟨⟨_, hs, ?_, ?_⟩, hlines, ?_, ?_, ?_⟩
  · simp only [serialOut_append, hq, List.append_nil]
    rfl
  · simp only [serialLines, serialOut_append, hq, List.append_nil]
    decide
  · rw [hlines, List.count_append, List.count_eq_zero.mpr (hne _ (by decide))]
    decide
  · rw [hlines, List.count_append, List.count_eq_zero.mpr (hne _ (by decide))]
    decide
  · rw [hlines, List.mem_append, not_or]
    exact ⟨by decide, hne _ (by decide)⟩

/-- Witness of C4 on version 0x92 with one idle poll and one readable card. -/
theorem ready_serial_output_witness :
    serialLines (arduinoMain 0x92 0
        [Poll.mk false false (Uid.mk 0 []),
         Poll.mk true true (Uid.mk 4 [0x04, 0xA3, 0xBC, 0x1D, 0, 0, 0, 0, 0, 0])])
      = ["ESP32_BOOT_OK", "RFID_INITIALIZING", "RC522_OK", "RFID_READY"]
          ++ ([Poll.mk false false (Uid.mk 0 []),
               Poll.mk true true (Uid.mk 4 [0x04, 0xA3, 0xBC, 0x1D, 0, 0, 0, 0, 0, 0])].filter
                Poll.cardRead).map (fun p => rfidLine p.uid) :=
  (ready_serial_output 0x92 0
    [Poll.mk false false (Uid.mk 0 []),
     Poll.mk true true (Uid.mk 4 [0x04, 0xA3, 0xBC, 0x1D, 0, 0, 0, 0, 0, 0])]
    (by decide) (by decide) (by decide)).2.1

/-- C5: a call of `loop()` in which both card checks succeed sends exactly one
serial line, the marker `RFID:` followed by the upper-case hex text of the
identifier bytes; the LED activity that follows is the success pattern of
3 pulses of 100 ms on and 100 ms off; for the bytes 04 A3 BC 1D the line is
`RFID:04A3BC1D`. -/
theorem loop_card_report (p : Poll)
    (hp : p.isNewCardPresent = true) (hr : p.readCardSerial = true)
    (hsize : p.uid.size < 256) (hbuf : p.uid.size ≤ p.uid.uidByte.length)
    (hbyte : ∀ b ∈ p.uid.uidByte, b < 256) :
    loop p = [Event.piccIsNewCardPresent, Event.piccReadCardSerial,
              Event.serialPrint "RFID:", Event.serialPrintln (uidString p.uid)]
              ++ (List.replicate 3 (pulse 100 100)).flatten
              ++ [Event.piccHaltA, Event.pcdStopCrypto1, Event.delay 500]
      ∧ serialOut (loop p)
          = "RFID:".data ++ upperHex (p.uid.uidByte.take p.uid.size) ++ ['\r', '\n']
      ∧ serialLines (loop p)
          = ["RFID:" ++ String.mk (upperHex (p.uid.uidByte.take p.uid.size))]
      ∧ ledWrites (loop p) = [HIGH, LOW, HIGH, LOW, HIGH, LOW]
      ∧ (p.uid.uidByte.take p.uid.size = [0x04, 0xA3, 0xBC, 0x1D]
          → serialLines (loop p) = ["RFID:04A3BC1D"]) := by
  have hc : p.cardRead = true := by simp [Poll.cardRead, hp, hr]
  have hl := loop_of_cardRead p hc
  have hd : (uidString p.uid).data = upperHex (p.uid.uidByte.take p.uid.size) := by
    rw [uidString_data, uidBytes_eq_take p.uid hsize hbuf hbyte]
  have hu : uidString p.uid = String.mk (upperHex (p.uid.uidByte.take p.uid.size)) :=
    String.ext hd
  have hlines : serialLines (loop p)
      = ["RFID:" ++ String.mk (upperHex (p.uid.uidByte.take p.uid.size))] := by
    have e := serialLines_polls [p]
    simp only [List.flatMap_cons, List.flatMap_nil, List.append_nil, List.filter_cons, hc,
      if_true, List.filter_nil, List.map_cons, List.map_nil, rfidLine, hu] at e
    exact e
  refine ⟨hl, ?_, hlines, ?_, ?_⟩
  · rw [serialOut_loop, hc, if_pos rfl, rfidLine, String.data_append, hd]
  · rw [hl]
    rfl
  · intro hB
    rw [hlines, hB]
    decide

/-- Witness of C5 on the card 04 A3 BC 1D. -/
theorem loop_card_report_witness :
    serialLines (loop (Poll.mk true true (Uid.mk 4 [0x04, 0xA3, 0xBC, 0x1D, 0, 0, 0, 0, 0, 0])))
      = ["RFID:04A3BC1D"] :=
  (loop_card_report (Poll.mk true true (Uid.mk 4 [0x04, 0xA3, 0xBC, 0x1D, 0, 0, 0, 0, 0, 0]))
    rfl rfl (by decide) (by decide) (by decide)).2.2.2.2 rfl

/-- C8: in every run of `setup()` followed by any number of calls of `loop()`,
with time counted as the sum of the `delay` arguments, once an `RFID:` line
has been sent (the `print` of the marker followed by the `println` of the
identifier), at least 500 ms elapse before any further write to the serial
link. -/
theorem debounce_after_report (versionReg rounds : Nat) (polls : List Poll)
    (a b c : List Event) (s : String) (e : Event)
    (h : arduinoMain versionReg rounds polls
          = a ++ Event.serialPrint "RFID:" :: Event.serialPrintln s :: (b ++ e :: c))
    (he : e.isSerial = true) :
    500 ≤ elapsed b := by
  obtain ⟨u, rest', hrest⟩ := print_in_run versionReg rounds polls a _ h
  simp only [afterPrint, List.cons_append, List.cons.injEq] at hrest
  obtain ⟨b', hb⟩ := quiet_until
    (q := (List.replicate 3 (pulse 100 100)).flatten
            ++ [Event.piccHaltA, Event.pcdStopCrypto1, Event.delay 500])
    (by decide) he hrest.2
  rw [hb, elapsed_append]
  have h1 : elapsed ((List.replicate 3 (pulse 100 100)).flatten
      ++ [Event.piccHaltA, Event.pcdStopCrypto1, Event.delay 500]) = 1100 := by decide
  omega

/-- Witness of C8 on a run where the same card is reported twice in a row. -/
theorem debounce_after_report_witness :
    500 ≤ elapsed (blinkSuccess 3 100 100
            ++ [Event.piccHaltA, Event.pcdStopCrypto1, Event.delay 500,
                Event.piccIsNewCardPresent, Event.piccReadCardSerial]) :=
  debounce_after_report 0x92 0
    [Poll.mk true true (Uid.mk 4 [0x04, 0xA3, 0xBC, 0x1D, 0, 0, 0, 0, 0, 0]),
     Poll.mk true true (Uid.mk 4 [0x04, 0xA3, 0xBC, 0x1D, 0, 0, 0, 0, 0, 0])]
    ((setup 0x92 0).trace ++ [Event.piccIsNewCardPresent, Event.piccReadCardSerial])
    (blinkSuccess 3 100 100
      ++ [Event.piccHaltA, Event.pcdStopCrypto1, Event.delay 500,
          Event.piccIsNewCardPresent, Event.piccReadCardSerial])
    (Event.serialPrintln (uidString (Uid.mk 4 [0x04, 0xA3, 0xBC, 0x1D, 0, 0, 0, 0, 0, 0]))
      :: (blinkSuccess 3 100 100
            ++ [Event.piccHaltA, Event.pcdStopCrypto1, Event.delay 500]))
    (uidString (Uid.mk 4 [0x04, 0xA3, 0xBC, 0x1D, 0, 0, 0, 0, 0, 0]))
    (Event.serialPrint "RFID:")
    (by simp [arduinoMain, setup, loop, Outcome.trace])
    rfl

/-- C9: a call of `loop()` that reports a card halts the card and stops the
crypto session exactly once each, `PICC_HaltA` then `PCD_StopCrypto1`, after
the `RFID:` line and the success pattern and before the 500 ms delay; so in
every run each `RFID:` line is followed by the pattern, the halt, the crypto
stop and the delay before the reader is polled again. -/
theorem card_released_after_report (p : Poll)
    (hp : p.isNewCardPresent = true) (hr : p.readCardSerial = true) :
    loop p = [Event.piccIsNewCardPresent, Event.piccReadCardSerial,
              Event.serialPrint "RFID:", Event.serialPrintln (uidString p.uid)]
              ++ (List.replicate 3 (pulse 100 100)).flatten
              ++ [Event.piccHaltA, Event.pcdStopCrypto1, Event.delay 500]
      ∧ (loop p).count Event.piccHaltA = 1
      ∧ (loop p).count Event.pcdStopCrypto1 = 1
      ∧ Event.piccIsNewCardPresent ∉ (List.replicate 3 (pulse 100 100)).flatten
      ∧ ∀ (versionReg rounds : Nat) (polls : List Poll) (a rest : List Event),
          arduinoMain versionReg rounds polls = a ++ Event.serialPrint "RFID:" :: rest →
          ∃ (u : Uid) (rest' : List Event),
            rest = Event.serialPrintln (uidString u)
                    :: ((List.replicate 3 (pulse 100 100)).flatten
                        ++ Event.piccHaltA :: Event.pcdStopCrypto1 :: Event.delay 500
                        :: rest') := by
  have hc : p.cardRead = true := by simp [Poll.cardRead, hp, hr]
  have hl := loop_of_cardRead p hc
  refine ⟨hl, ?_, ?_, by decide, ?_⟩
  · rw [hl]
    simp [pulse, List.replicate_succ]
  · rw [hl]
    simp [pulse, List.replicate_succ]
  · intro versionReg rounds polls a rest h
    obtain ⟨u, rest', hrest⟩ := print_in_run versionReg rounds polls a rest h
    exact ⟨u, rest', by simp [hrest, afterPrint]⟩

/-- Witness of C9 on the card 04 A3 BC 1D, alone in front of the reader after
a start with version 0x92. -/
theorem card_released_after_report_witness :
    (loop (Poll.mk true true (Uid.mk 4 [0x04, 0xA3, 0xBC, 0x1D, 0, 0, 0, 0, 0, 0]))).count
        Event.piccHaltA = 1
      ∧ (loop (Poll.mk true true (Uid.mk 4 [0x04, 0xA3, 0xBC, 0x1D, 0, 0, 0, 0, 0, 0]))).count
        Event.pcdStopCrypto1 = 1
      ∧ ∃ (u : Uid) (rest' : List Event),
          Event.serialPrintln (uidString (Uid.mk 4 [0x04, 0xA3, 0xBC, 0x1D, 0, 0, 0, 0, 0, 0]))
              :: (blinkSuccess 3 100 100
                    ++ [Event.piccHaltA, Event.pcdStopCrypto1, Event.delay 500])
            = Event.serialPrintln (uidString u)
                :: ((List.replicate 3 (pulse 100 100)).flatten
                    ++ Event.piccHaltA :: Event.pcdStopCrypto1 :: Event.delay 500 :: rest') :=
  ⟨(card_released_after_report
      (Poll.mk true true (Uid.mk 4 [0x04, 0xA3, 0xBC, 0x1D, 0, 0, 0, 0, 0, 0])) rfl rfl).2.1,
   (card_released_after_report
      (Poll.mk true true (Uid.mk 4 [0x04, 0xA3, 0xBC, 0x1D, 0, 0, 0, 0, 0, 0])) rfl rfl).2.2.1,
   (card_released_after_report
      (Poll.mk true true (Uid.mk 4 [0x04, 0xA3, 0xBC, 0x1D, 0, 0, 0, 0, 0, 0])) rfl rfl).2.2.2.2
      0x92 0 [Poll.mk true true (Uid.mk 4 [0x04, 0xA3, 0xBC, 0x1D, 0, 0, 0, 0, 0, 0])]
      ((setup 0x92 0).trace ++ [Event.piccIsNewCardPresent, Event.piccReadCardSerial])
      (Event.serialPrintln (uidString (Uid.mk 4 [0x04, 0xA3, 0xBC, 0x1D, 0, 0, 0, 0, 0, 0]))
        :: (blinkSuccess 3 100 100
              ++ [Event.piccHaltA, Event.pcdStopCrypto1, Event.delay 500]))
      (by simp [arduinoMain, setup, loop, Outcome.trace])⟩

/-- C10, refuted as stated: in the Fault state the second error pattern starts
2000 ms after the first one, not about 1000 ms after it. -/
theorem fault_pattern_restart_not_one_second :
    elapsed (setup 0x00 1).trace = elapsed (setup 0x00 0).trace + 2000
      ∧ ¬ (elapsed (setup 0x00 1).trace < elapsed (setup 0x00 0).trace + 2000) := by
  rw [setup_fault 0x00 1 (Or.inl rfl), setup_fault 0x00 0 (Or.inl rfl)]
  decide

/-- C10, amended: in the Fault state (version register 0x00 or 0xFF) `setup()`
never returns and each round of its loop is the error pattern of 10 pulses of
50 ms on and 50 ms off, which lasts 1000 ms, followed by a pause of 1000 ms;
so the time from the start of one error pattern to the start of the next is
2000 ms. -/
theorem fault_loop_period (versionReg rounds : Nat)
    (hv : versionReg = 0x00 ∨ versionReg = 0xFF) :
    (∀ t, setup versionReg rounds ≠ Outcome.returned t)
      ∧ (setup versionReg (rounds + 1)).trace
          = (setup versionReg rounds).trace
              ++ (List.replicate 10 (pulse 50 50)).flatten ++ [Event.delay 1000]
      ∧ elapsed (List.replicate 10 (pulse 50 50)).flatten = 1000
      ∧ elapsed (setup versionReg (rounds + 1)).trace
          = elapsed (setup versionReg rounds).trace + 2000 := by
  have hm : versionReg % 256 = 0x00 ∨ versionReg % 256 = 0xFF := by
    rcases hv with rfl | rfl
    · exact Or.inl rfl
    · exact Or.inr rfl
  have hstep : (setup versionReg (rounds + 1)).trace
      = (setup versionReg rounds).trace
          ++ (List.replicate 10 (pulse 50 50)).flatten ++ [Event.delay 1000] := by
    rw [setup_fault versionReg (rounds + 1) hm, setup_fault versionReg rounds hm]
    simp only [Outcome.trace, flatten_replicate_succ_end, List.append_assoc]
  refine ⟨?_, hstep, by decide, ?_⟩
  · intro t
    rw [setup_fault versionReg rounds hm]
    simp
  · rw [hstep, elapsed_append, elapsed_append]
    have h1 : elapsed (List.replicate 10 (pulse 50 50)).flatten = 1000 := by decide
    have h2 : elapsed [Event.delay 1000] = 1000 := by decide
    omega

/-- Witness of the amended C10 on version 0xFF after four rounds. -/
theorem fault_loop_period_witness :
    elapsed (setup 0xFF (4 + 1)).trace = elapsed (setup 0xFF 4).trace + 2000 :=
  (fault_loop_period 0xFF 4 (Or.inr rfl)).2.2.2

end RFIDWallet
